import Mathlib

/-!
Shallow embedding of the orchestration core of `src/server.js`
(repository `removesorawatermark`): the upload fallback chain
`uploadToReplicate` and the prediction orchestrator `runPredictionWithUrl`,
together with the configuration parsing (`parseReplicateModelVersion`),
endpoint selection, and the `/api/health` and `/api/remove` handlers.

Modelling conventions:
* JavaScript strings are Lean `String`; absent (`undefined`/`null`) values
  are `Option String` with `none`; JS truthiness of a string is `s != ""`.
* Network effects are modelled environmentally: each backend call's
  response (or `none` for a thrown network error) is an input, and the
  calls the code issues are reported as an explicit action trace.
* Regex operations of the source (`^http://` replacement, the anchored
  catbox / tmpfiles patterns, `split(":")`) are embedded as structural
  `List Char` computations so that everything evaluates by `decide`/`rfl`.
* Logging (`console.*`, the `onLog` sink) has no effect on control flow
  and is elided from the model.
-/

/-- Model of a character-list prefix test: `pat` anchored at the start of
`l`, as in the source's `^`-anchored regexes. -/
def startsWithL : List Char → List Char → Bool
  | [], _ => true
  | _ :: _, [] => false
  | p :: ps, c :: cs => p == c && startsWithL ps cs

/-- Does `pat` occur as a contiguous segment of `l`?  Used to reason about
which backend names occur in an error message. -/
def containsSeg (pat : List Char) : List Char → Bool
  | [] => pat.isEmpty
  | c :: cs => startsWithL pat (c :: cs) || containsSeg pat cs

/-- JS `String.prototype.trim` on the character list. -/
def trimL (l : List Char) : List Char :=
  ((l.dropWhile Char.isWhitespace).reverse.dropWhile Char.isWhitespace).reverse

/-- JS `s.trim()`. -/
def jsTrim (s : String) : String := String.mk (trimL s.data)

/-- `s.replace(/^http:\x2f\x2f/, "https:\x2f\x2f")` on the character list:
a leading `http://` becomes `https://`; anything else is unchanged. -/
def stripHttpL (l : List Char) : List Char :=
  if startsWithL (("http://").data) l then ("https://").data ++ l.drop 7 else l

/-- The source's secure-scheme coercion of a URL string. -/
def stripHttp (s : String) : String := String.mk (stripHttpL s.data)

/-- JS `a || b` on two possibly-absent strings: `a` when it is a truthy
(non-empty) string, otherwise `b`. -/
def jsOrStr (a b : Option String) : Option String :=
  match a with
  | some s => if s = "" then b else some s
  | none => b

/-- JS truthiness of a possibly-absent string. -/
def jsTruthy (o : Option String) : Bool :=
  match o with
  | none => false
  | some s => s != ""

/-- Content-type inference of `uploadToReplicate` (`.mov` maps to
quicktime, everything else to mp4). -/
def inferContentType (filename : Option String) : String :=
  let lower := (filename.getD ("")).toLower
  if lower.endsWith (".mov") then "video/quicktime"
  else if lower.endsWith (".mp4") then "video/mp4"
  else "video/mp4"

/-- The four upload backends of the fallback chain, in source order. -/
inductive Backend where
  | cloudinary
  | catbox
  | tmpfiles
  | transferSh
deriving DecidableEq, Repr

/-- Body of a successful-or-not JSON response from Cloudinary:
`secure_url` and `url` fields, each possibly absent. -/
structure CloudinaryJson where
  secure_url : Option String
  url : Option String
deriving DecidableEq, Repr

/-- A Cloudinary upload response: HTTP `ok` flag and the parsed JSON body
(`none` models a body that failed to parse, which the source's
`.catch(() => ({}))` turns into an object with no fields). -/
structure CloudinaryResp where
  ok : Bool
  json : Option CloudinaryJson
deriving DecidableEq, Repr

/-- A plain-text HTTP response (catbox.moe and transfer.sh). -/
structure HttpTextResp where
  ok : Bool
  body : String
deriving DecidableEq, Repr

/-- Body of a tmpfiles.org JSON response: `data_url` models `j.data.url`
and `url` models `j.url`, each possibly absent. -/
structure TmpfilesJson where
  data_url : Option String
  url : Option String
deriving DecidableEq, Repr

/-- A tmpfiles.org upload response. -/
structure TmpfilesResp where
  ok : Bool
  json : Option TmpfilesJson
deriving DecidableEq, Repr

/-- Environment of one `uploadToReplicate` call: the Cloudinary
configuration strings (`""` models an unset variable, matching the
source's `|| ""` defaults) and, for each backend, the response its
single upload call would produce (`none` models a thrown network
error). -/
structure UploadEnv where
  cloudName : String
  uploadPreset : String
  cloudinaryResp : Option CloudinaryResp
  catboxResp : Option HttpTextResp
  tmpfilesResp : Option TmpfilesResp
  transferResp : Option HttpTextResp
deriving DecidableEq, Repr

/-- `CLOUDINARY_CLOUD_NAME && CLOUDINARY_UPLOAD_PRESET`. -/
def cloudinaryConfigured (env : UploadEnv) : Bool :=
  env.cloudName != "" && env.uploadPreset != ""

/-- The Cloudinary branch: on a 2xx response take
`(j.secure_url || j.url || "")`, coerce the scheme, and succeed iff the
result is non-empty.  Any non-2xx response or thrown error is a failed
attempt. -/
def cloudinaryAttempt (resp : Option CloudinaryResp) : Option String :=
  match resp with
  | none => none
  | some r =>
    if !r.ok then none
    else
      let j := r.json.getD ⟨none, none⟩
      let url := stripHttp ((jsOrStr j.secure_url j.url).getD (""))
      if url == "" then none else some url

/-- The anchored catbox link pattern `^https:\x2f\x2ffiles.catbox.moe\x2f`. -/
def catboxPat : List Char := ("https://files.catbox.moe/").data

/-- The catbox.moe branch: trim and scheme-coerce the text body, succeed
iff it is non-empty and matches the catbox link pattern. -/
def catboxAttempt (resp : Option HttpTextResp) : Option String :=
  match resp with
  | none => none
  | some r =>
    if !r.ok then none
    else
      let catUrl := stripHttp (jsTrim r.body)
      if catUrl != "" && startsWithL catboxPat catUrl.data then some catUrl
      else none

/-- The anchored tmpfiles landing-page pattern `^https:\x2f\x2ftmpfiles.org\x2f`. -/
def tmpfilesPat : List Char := ("https://tmpfiles.org/").data

/-- Segment delimiter of the tmpfiles first path segment: the regex
character class `[\x2f?#]`. -/
def isDelim (c : Char) : Bool := c == '/' || c == '?' || c == '#'

/-- First path segment after the tmpfiles host: the maximal non-empty run
of non-delimiter characters (the regex group `([^\x2f?#]+)`). -/
def firstSeg (l : List Char) : List Char :=
  l.takeWhile (fun c => !(isDelim c))

/-- Rewrite of a tmpfiles URL to the direct-download form: a URL matching
`^https:\x2f\x2ftmpfiles.org\x2f([^\x2f?#]+)` becomes
`https://tmpfiles.org/dl/` followed by the captured segment; a URL not
matching the pattern is left unchanged. -/
def tmpfilesRewriteL (l : List Char) : List Char :=
  if startsWithL tmpfilesPat l then
    if (firstSeg (l.drop tmpfilesPat.length)).isEmpty then l
    else ("https://tmpfiles.org/dl/").data ++ firstSeg (l.drop tmpfilesPat.length)
  else l

/-- The tmpfiles.org branch: on a 2xx response take
`j.data.url || j.url`; if truthy, coerce the scheme and apply the
direct-link rewrite; otherwise the attempt fails. -/
def tmpfilesAttempt (resp : Option TmpfilesResp) : Option String :=
  match resp with
  | none => none
  | some r =>
    if !r.ok then none
    else
      let j := r.json.getD ⟨none, none⟩
      match jsOrStr j.data_url j.url with
      | none => none
      | some u =>
        if u == "" then none
        else some (String.mk (tmpfilesRewriteL ((stripHttp u).data)))

/-- The transfer.sh branch: on a 2xx response the trimmed, scheme-coerced
text body is returned unconditionally (the source performs no shape check
on it). -/
def transferShAttempt (resp : Option HttpTextResp) : Option String :=
  match resp with
  | none => none
  | some r =>
    if !r.ok then none
    else some (stripHttp (jsTrim r.body))

/-- Result of one `uploadToReplicate` call: the returned URL or the
thrown error message, together with the list of backends whose upload
call was issued, in order. -/
structure UploadOutcome where
  result : Except String String
  attempted : List Backend
deriving Repr

/-- The aggregate error thrown when every strategy failed (source line
190); its text is fixed and does not mention Cloudinary. -/
def aggregateFailMsg : String :=
  "All upload strategies failed (catbox.moe, tmpfiles.org, transfer.sh)."

/-- The upload strategy chain of `uploadToReplicate` (source lines
69-191): Cloudinary when configured, then catbox.moe, then tmpfiles.org,
then transfer.sh, stopping at the first successful attempt and otherwise
throwing the aggregate error. -/
def uploadToReplicate (env : UploadEnv) : UploadOutcome :=
  let cloudTried : List Backend :=
    if cloudinaryConfigured env then [Backend.cloudinary] else []
  match (if cloudinaryConfigured env then cloudinaryAttempt env.cloudinaryResp else none) with
  | some url => ⟨Except.ok url, cloudTried⟩
  | none =>
    match catboxAttempt env.catboxResp with
    | some url => ⟨Except.ok url, cloudTried ++ [Backend.catbox]⟩
    | none =>
      match tmpfilesAttempt env.tmpfilesResp with
      | some url => ⟨Except.ok url, cloudTried ++ [Backend.catbox, Backend.tmpfiles]⟩
      | none =>
        match transferShAttempt env.transferResp with
        | some url =>
          ⟨Except.ok url, cloudTried ++ [Backend.catbox, Backend.tmpfiles, Backend.transferSh]⟩
        | none =>
          ⟨Except.error aggregateFailMsg,
           cloudTried ++ [Backend.catbox, Backend.tmpfiles, Backend.transferSh]⟩

/-- What a given backend's attempt yields in environment `env`
(Cloudinary is attempted only when configured). -/
def attemptOf (env : UploadEnv) : Backend → Option String
  | Backend.cloudinary =>
    if cloudinaryConfigured env then cloudinaryAttempt env.cloudinaryResp else none
  | Backend.catbox => catboxAttempt env.catboxResp
  | Backend.tmpfiles => tmpfilesAttempt env.tmpfilesResp
  | Backend.transferSh => transferShAttempt env.transferResp

/-- The fixed priority order of the chain in environment `env`. -/
def uploadPriority (env : UploadEnv) : List Backend :=
  (if cloudinaryConfigured env then [Backend.cloudinary] else []) ++
    [Backend.catbox, Backend.tmpfiles, Backend.transferSh]

/-- Generic first-success iteration over a list of backends; the nested
try/catch cascade of the source is proved equal to it. -/
def chainRun (env : UploadEnv) : List Backend → UploadOutcome
  | [] => ⟨Except.error aggregateFailMsg, []⟩
  | b :: bs =>
    match attemptOf env b with
    | some url => ⟨Except.ok url, [b]⟩
    | none =>
      let r := chainRun env bs
      ⟨r.result, b :: r.attempted⟩

/-- Process configuration read at startup: `REPLICATE_API_TOKEN` and
`REPLICATE_MODEL_VERSION` (`none` models an unset variable). -/
structure ReplicateConfig where
  apiToken : Option String
  modelVersion : Option String
deriving DecidableEq, Repr

/-- Colon detection, `val.includes(":")`. -/
def hasColonL : List Char → Bool
  | [] => false
  | c :: cs => c == ':' || hasColonL cs

/-- `parseReplicateModelVersion` (source lines 38-47): a falsy value gives
no model and no version; a value with a colon is split on `:` and the
first two fields become model and version, each replaced by `null` when
empty; a colon-free value is a bare version hash. -/
def parseReplicateModelVersion (val : Option String) : Option String × Option String :=
  match val with
  | none => (none, none)
  | some v =>
    if v.data.isEmpty then (none, none)
    else if hasColonL v.data then
      let mdl := v.data.takeWhile (fun c => !(c == ':'))
      let ver := (v.data.drop (mdl.length + 1)).takeWhile (fun c => !(c == ':'))
      (if mdl.isEmpty then none else some (String.mk mdl),
       if ver.isEmpty then none else some (String.mk ver))
    else (none, some v)

/-- Submission endpoint selection (source lines 203-206): the
model/version-specific endpoint when the parsed model slug is truthy
(with version `REPLICATE_VERSION_ID || REPLICATE_MODEL_VERSION`),
otherwise the generic predictions endpoint. -/
def submissionEndpoint (cfg : ReplicateConfig) : String :=
  let p := parseReplicateModelVersion cfg.modelVersion
  let verOr := jsOrStr p.2 cfg.modelVersion
  if jsTruthy p.1 && jsTruthy verOr then
    "https://api.replicate.com/v1/models/" ++ p.1.getD ("") ++ "/versions/"
      ++ verOr.getD ("") ++ "/predictions"
  else "https://api.replicate.com/v1/predictions"

/-- A prediction job payload as returned by the provider. The `output`
field is opaque JSON, modelled as an optional string. -/
structure PredictionData where
  id : String
  status : String
  error : Option String
  output : Option String
  logs : Option String
deriving DecidableEq, Repr

/-- A poll response: an HTTP error (non-2xx status and body text) or a
parsed job payload. -/
inductive PollResult where
  | httpError (status : Nat) (text : String)
  | ok (d : PredictionData)
deriving DecidableEq, Repr

/-- The submission response: `ok` flag, HTTP status, body text (used on
failure) and parsed payload (used on success). -/
structure StartResult where
  ok : Bool
  httpStatus : Nat
  text : String
  data : PredictionData
deriving DecidableEq, Repr

/-- Outbound network actions the orchestrator can perform. `cancel` is in
the alphabet to state that no cancellation is ever sent to the provider;
the code never emits it. -/
inductive NetAction where
  | upload (b : Backend)
  | submit (endpoint : String)
  | sleep (ms : Nat)
  | pollReq (pid : String)
  | cancel
deriving DecidableEq, Repr

/-- Is an action a poll request? -/
def isPollReq : NetAction → Bool
  | NetAction.pollReq _ => true
  | _ => false

/-- The fixed inter-poll delay of the source (`setTimeout(r, 2000)`). -/
def pollDelayMs : Nat := 2000

/-- The wall-clock timeout budget of the source
(`10 * 60 * 1000` milliseconds measured from submission). -/
def timeoutMs : Nat := 10 * 60 * 1000

/-- Non-terminal statuses: the `while` condition
`["queued", "starting", "processing"].includes(status)`. -/
def nonTerminal (s : String) : Bool :=
  s == "queued" || s == "starting" || s == "processing"

/-- The polling loop of `runPredictionWithUrl` (source lines 236-264).
`env` supplies, for each loop iteration, the elapsed milliseconds
observed at the loop head and the poll response; the result is the
value returned or error thrown (`none` when `env` is too short to
determine it) paired with the trace of issued actions. -/
def pollLoop (pid : String) (budget : Nat) (status : String) (lastData : PredictionData) :
    List (Nat × PollResult) → Option (Except String PredictionData) × List NetAction
  | [] =>
    if nonTerminal status then (none, [])
    else if !(status == "succeeded") then
      (some (Except.error ("Prediction ended with status: " ++ status ++ ", error: "
        ++ lastData.error.getD ("unknown"))), [])
    else (some (Except.ok lastData), [])
  | (elapsed, pr) :: rest =>
    if nonTerminal status then
      if budget < elapsed then (some (Except.error ("Prediction timed out.")), [])
      else
        match pr with
        | PollResult.httpError st text =>
          (some (Except.error ("Replicate prediction poll failed: " ++ toString st ++ " " ++ text)),
           [NetAction.sleep pollDelayMs, NetAction.pollReq pid])
        | PollResult.ok d =>
          let r := pollLoop pid budget d.status d rest
          (r.1, NetAction.sleep pollDelayMs :: NetAction.pollReq pid :: r.2)
    else if !(status == "succeeded") then
      (some (Except.error ("Prediction ended with status: " ++ status ++ ", error: "
        ++ lastData.error.getD ("unknown"))), [])
    else (some (Except.ok lastData), [])

/-- Result of one `runPredictionWithUrl` call: the endpoint targeted by
the submission POST, the video URL placed in `input.video`, the returned
payload or thrown error, and the trace of issued actions. -/
structure RunOutcome where
  endpoint : String
  inputVideo : String
  result : Except String PredictionData
  actions : List NetAction
deriving Repr

/-- `runPredictionWithUrl` (source lines 194-265): select the endpoint,
issue the submission POST, fail on a non-2xx submission response, and
otherwise poll until a terminal status or the timeout budget. -/
def runPredictionWithUrl (cfg : ReplicateConfig) (videoUrl : String)
    (start : StartResult) (env : List (Nat × PollResult)) : Option RunOutcome :=
  let endpoint := submissionEndpoint cfg
  if !start.ok then
    some ⟨endpoint, videoUrl,
      Except.error ("Replicate prediction start failed: " ++ toString start.httpStatus
        ++ " " ++ start.text),
      [NetAction.submit endpoint]⟩
  else
    let r := pollLoop start.data.id timeoutMs start.data.status start.data env
    match r.1 with
    | none => none
    | some res => some ⟨endpoint, videoUrl, res, NetAction.submit endpoint :: r.2⟩

/-- The trace produced by `n` completed poll iterations. -/
def pollTrace (pid : String) (n : Nat) : List NetAction :=
  (List.replicate n [NetAction.sleep pollDelayMs, NetAction.pollReq pid]).flatten

/-- A multipart file as seen by the handler: truthiness of `file.buffer`
and the original filename (`""` models a falsy name). -/
structure FileReq where
  hasBuffer : Bool
  originalname : String
deriving DecidableEq, Repr

/-- A request to `POST /api/remove`: whether it is JSON, the `url` body
field, and the multipart file if any.  A parsed JSON body object itself
is always truthy, so only `req.is("application/json")` and `req.body.url`
appear. -/
structure RemoveReq where
  isJson : Bool
  bodyUrl : Option String
  file : Option FileReq
deriving DecidableEq, Repr

/-- An HTTP response body from the handler: the success JSON
`{status, output, logs}` (the accumulated diagnostic log lines are
elided; `logs` carries the prediction's own `logs` field) or the error
JSON `{error}`. -/
inductive RespBody where
  | success (status : String) (output : Option String) (logs : Option String)
  | failure (error : String)
deriving DecidableEq, Repr

/-- An HTTP response from the handler together with the trace of network
actions performed while producing it. -/
structure HandlerOutcome where
  status : Nat
  body : RespBody
  actions : List NetAction
deriving DecidableEq, Repr

/-- The `replicateConfigured` field reported by `GET /api/health`:
`!!(REPLICATE_API_TOKEN && REPLICATE_MODEL_VERSION)`. -/
def healthReplicateConfigured (cfg : ReplicateConfig) : Bool :=
  jsTruthy cfg.apiToken && jsTruthy cfg.modelVersion

/-- The not-configured error message of `POST /api/remove`. -/
def serverNotConfiguredMsg : String :=
  "Server not configured. Set REPLICATE_API_TOKEN and REPLICATE_MODEL_VERSION."

/-- The `POST /api/remove` handler (source lines 268-311): reject when the
configuration is incomplete, then try the JSON-URL branch, then the
multipart-file branch, else reject the request shape; orchestrator errors
become 500 responses carrying the message. `none` models a run whose
polling environment was too short to determine the outcome. -/
def removeHandler (cfg : ReplicateConfig) (req : RemoveReq) (uenv : UploadEnv)
    (start : StartResult) (penv : List (Nat × PollResult)) : Option HandlerOutcome :=
  if !(jsTruthy cfg.apiToken) || !(jsTruthy cfg.modelVersion) then
    some ⟨500, RespBody.failure serverNotConfiguredMsg, []⟩
  else if req.isJson && jsTruthy req.bodyUrl then
    let videoUrl := jsTrim (req.bodyUrl.getD (""))
    if videoUrl == "" then some ⟨400, RespBody.failure ("Invalid URL."), []⟩
    else
      match runPredictionWithUrl cfg videoUrl start penv with
      | none => none
      | some r =>
        match r.result with
        | Except.ok d => some ⟨200, RespBody.success d.status d.output d.logs, r.actions⟩
        | Except.error msg => some ⟨500, RespBody.failure msg, r.actions⟩
  else
    match req.file with
    | some f =>
      if !f.hasBuffer || f.originalname == "" then
        some ⟨400, RespBody.failure ("Invalid file upload."), []⟩
      else
        let u := uploadToReplicate uenv
        match u.result with
        | Except.error msg =>
          some ⟨500, RespBody.failure msg, u.attempted.map NetAction.upload⟩
        | Except.ok tempUrl =>
          match runPredictionWithUrl cfg tempUrl start penv with
          | none => none
          | some r =>
            match r.result with
            | Except.ok d =>
              some ⟨200, RespBody.success d.status d.output d.logs,
                u.attempted.map NetAction.upload ++ r.actions⟩
            | Except.error msg =>
              some ⟨500, RespBody.failure msg, u.attempted.map NetAction.upload ++ r.actions⟩
    | none =>
      some ⟨400, RespBody.failure ("Provide either JSON \x7burl\x7d or multipart with \x27file\x27."), []⟩

/-- Environment with no Cloudinary configuration in which every backend
call throws. -/
def envNoCloudAllFail : UploadEnv := ⟨"", "", none, none, none, none⟩

/-- Environment with Cloudinary configured in which every backend call
throws. -/
def envAllFailCloud : UploadEnv := ⟨"c", "p", none, none, none, none⟩

/-- Environment in which the first backends fail and transfer.sh answers
2xx with an empty body. -/
def envTransferEmpty : UploadEnv := ⟨"", "", none, none, none, some ⟨true, ""⟩⟩

/-- Environment in which the first backends fail and transfer.sh answers
2xx with a non-http-scheme body. -/
def envTransferFtp : UploadEnv :=
  ⟨"", "", none, none, none, some ⟨true, "ftp://example.com/a.mp4"⟩⟩

/-- Environment in which catbox.moe answers 2xx with a valid link whose
raw scheme is insecure http. -/
def envCatboxOk : UploadEnv :=
  ⟨"", "", none, some ⟨true, " http://files.catbox.moe/a.mp4 "⟩, none, none⟩

/-- Environment in which tmpfiles.org answers 2xx with a landing-page URL
carrying a filename segment. -/
def envTmpfilesOk : UploadEnv :=
  ⟨"", "", none, none, some ⟨true, some ⟨some ("http://tmpfiles.org/123/video.mp4"), none⟩⟩, none⟩

/-- Fully configured Replicate configuration with a compound
`owner/name:version` model identifier. -/
def cfgModel : ReplicateConfig := ⟨some ("tok"), some ("owner/name:abc123")⟩

/-- Configuration whose model identifier starts with a colon. -/
def cfgColonOnly : ReplicateConfig := ⟨some ("tok"), some (":abc123")⟩

/-- A queued job payload. -/
def dQueued : PredictionData := ⟨"p1", "queued", none, none, none⟩

/-- A starting job payload. -/
def dStarting : PredictionData := ⟨"p1", "starting", none, none, none⟩

/-- A processing job payload. -/
def dProcessing : PredictionData := ⟨"p1", "processing", none, none, none⟩

/-- A succeeded job payload carrying an output URL. -/
def dSucceeded : PredictionData :=
  ⟨"p1", "succeeded", none, some ("https://cdn.example.com/out.mp4"), none⟩

/-- A failed job payload carrying a provider error detail. -/
def dFailed : PredictionData := ⟨"p1", "failed", some ("NSFW detected"), none, none⟩

/-- A 2xx submission response whose payload is already succeeded. -/
def startSucceeded : StartResult := ⟨true, 201, "", dSucceeded⟩

/-- A 2xx submission response whose payload is starting. -/
def startStarting : StartResult := ⟨true, 201, "", dStarting⟩

/-- Poll responses processing, processing, succeeded, all observed within
the budget. -/
def envPPS : List (Nat × PollResult) :=
  [(0, PollResult.ok dProcessing), (1, PollResult.ok dProcessing), (2, PollResult.ok dSucceeded)]

theorem startsWithL_self_append (p t : List Char) : startsWithL p (p ++ t) = true := by
  induction p with
  | nil => rfl
  | cons a as ih => simp [startsWithL, ih]

theorem startsWithL_eq_true_iff (p l : List Char) :
    startsWithL p l = true ↔ ∃ t, l = p ++ t := by
  induction p generalizing l with
  | nil => simp [startsWithL]
  | cons a as ih =>
    cases l with
    | nil => simp [startsWithL]
    | cons b bs =>
      simp only [startsWithL, Bool.and_eq_true, beq_iff_eq, ih, List.cons_append]
      constructor
      · rintro ⟨rfl, t, rfl⟩
        exact ⟨t, rfl⟩
      · rintro ⟨t, h⟩
        injection h with h1 h2
        exact ⟨h1.symm, t, h2⟩

theorem http_not_prefix_https (l : List Char) :
    startsWithL (("http://").data) ((("https://").data) ++ l) = false := rfl

theorem stripHttpL_not_http (l : List Char) :
    startsWithL (("http://").data) (stripHttpL l) = false := by
  by_cases h : startsWithL (("http://").data) l = true
  · rw [stripHttpL, if_pos h]
    rfl
  · rw [Bool.not_eq_true] at h
    rw [stripHttpL, if_neg (by simp [h])]
    exact h

theorem stripHttpL_http (l : List Char) :
    stripHttpL ((("http://").data) ++ l) = (("https://").data) ++ l := by
  rw [stripHttpL, if_pos (startsWithL_self_append _ _)]
  congr 1

theorem stripHttpL_idem (l : List Char) : stripHttpL (stripHttpL l) = stripHttpL l := by
  by_cases h : startsWithL (("http://").data) l = true
  · have e1 : stripHttpL l = (("https://").data) ++ l.drop 7 := by
      rw [stripHttpL, if_pos h]
    rw [e1, stripHttpL, if_neg (by rw [http_not_prefix_https]; simp)]
  · rw [Bool.not_eq_true] at h
    have e1 : stripHttpL l = l := by
      rw [stripHttpL, if_neg (by simp [h])]
    rw [e1, e1]

theorem takeWhile_all_true (p : Char → Bool) (l : List Char) (h : ∀ c ∈ l, p c = true) :
    l.takeWhile p = l := by
  induction l with
  | nil => rfl
  | cons a as ih =>
    have ha : p a = true := h a (List.mem_cons_self a as)
    simp [List.takeWhile_cons, ha, ih (fun c hc => h c (List.mem_cons_of_mem a hc))]

theorem takeWhile_append_stop (p : Char → Bool) (xs : List Char) (y : Char) (ys : List Char)
    (hxs : ∀ c ∈ xs, p c = true) (hy : p y = false) :
    (xs ++ y :: ys).takeWhile p = xs := by
  induction xs with
  | nil => simp [List.takeWhile_cons, hy]
  | cons a as ih =>
    have ha : p a = true := hxs a (List.mem_cons_self a as)
    simp [List.takeWhile_cons, ha, ih (fun c hc => hxs c (List.mem_cons_of_mem a hc))]

theorem drop_append_cons_len (xs : List Char) (y : Char) (ys : List Char) :
    (xs ++ y :: ys).drop (xs.length + 1) = ys := by
  induction xs with
  | nil => rfl
  | cons a as ih => simp

theorem hasColonL_append_colon (m v : List Char) : hasColonL (m ++ (':') :: v) = true := by
  induction m with
  | nil => simp [hasColonL]
  | cons a as ih => simp [hasColonL, ih]

theorem hasColonL_eq_false (l : List Char) (h : (':') ∉ l) : hasColonL l = false := by
  induction l with
  | nil => rfl
  | cons a as ih =>
    have h1 : ¬(a = ':') := fun e => h (by simp [e])
    have h2 : (':') ∉ as := fun e => h (List.mem_cons_of_mem a e)
    simp [hasColonL, ih h2]
    exact fun e => h1 e

theorem chainRun_attempted_pre (env : UploadEnv) (l : List Backend) :
    ∃ rest, l = (chainRun env l).attempted ++ rest := by
  induction l with
  | nil => exact ⟨[], rfl⟩
  | cons b bs ih =>
    cases h : attemptOf env b with
    | some url => exact ⟨bs, by simp [chainRun, h]⟩
    | none =>
      obtain ⟨rest, hr⟩ := ih
      refine ⟨rest, ?_⟩
      simp only [chainRun, h]
      simpa using hr

theorem chainRun_ok (env : UploadEnv) (l : List Backend) (url : String)
    (h : (chainRun env l).result = Except.ok url) :
    ∃ pre b, (chainRun env l).attempted = pre ++ [b] ∧ attemptOf env b = some url ∧
      ∀ x ∈ pre, attemptOf env x = none := by
  induction l with
  | nil => simp [chainRun] at h
  | cons b bs ih =>
    cases hb : attemptOf env b with
    | some u =>
      have hu : u = url := by
        have := h
        simp only [chainRun, hb] at this
        exact Except.ok.inj this
      refine ⟨[], b, by simp [chainRun, hb], by rw [hb, hu], by simp⟩
    | none =>
      have h2 : (chainRun env bs).result = Except.ok url := by
        have := h
        simp only [chainRun, hb] at this
        exact this
      obtain ⟨pre, c, h3, h4, h5⟩ := ih h2
      refine ⟨b :: pre, c, ?_, h4, ?_⟩
      · simp only [chainRun, hb]
        simp [h3]
      · intro x hx
        rcases List.mem_cons.mp hx with h6 | h6
        · rw [h6]; exact hb
        · exact h5 x h6

theorem chainRun_error (env : UploadEnv) (l : List Backend) (msg : String)
    (h : (chainRun env l).result = Except.error msg) :
    (chainRun env l).attempted = l ∧ ∀ x ∈ l, attemptOf env x = none := by
  induction l with
  | nil => simp [chainRun]
  | cons b bs ih =>
    cases hb : attemptOf env b with
    | some u =>
      exfalso
      have := h
      simp [chainRun, hb] at this
    | none =>
      have h2 : (chainRun env bs).result = Except.error msg := by
        have := h
        simp only [chainRun, hb] at this
        exact this
      obtain ⟨h3, h4⟩ := ih h2
      refine ⟨?_, ?_⟩
      · simp only [chainRun, hb]
        simp [h3]
      · intro x hx
        rcases List.mem_cons.mp hx with h5 | h5
        · rw [h5]; exact hb
        · exact h4 x h5

theorem chainRun_all_none (env : UploadEnv) (l : List Backend)
    (h : ∀ x ∈ l, attemptOf env x = none) :
    chainRun env l = ⟨Except.error aggregateFailMsg, l⟩ := by
  induction l with
  | nil => rfl
  | cons b bs ih =>
    have hb := h b (List.mem_cons_self b bs)
    have ihh := ih (fun x hx => h x (List.mem_cons_of_mem b hx))
    simp [chainRun, hb, ihh]

theorem uploadToReplicate_eq_chainRun (env : UploadEnv) :
    uploadToReplicate env = chainRun env (uploadPriority env) := by
  cases hc : cloudinaryConfigured env <;>
    cases h0 : cloudinaryAttempt env.cloudinaryResp <;>
    cases h1 : catboxAttempt env.catboxResp <;>
    cases h2 : tmpfilesAttempt env.tmpfilesResp <;>
    cases h3 : transferShAttempt env.transferResp <;>
    simp [uploadToReplicate, chainRun, uploadPriority, attemptOf, hc, h0, h1, h2, h3]

theorem pollTrace_zero (pid : String) : pollTrace pid 0 = [] := rfl

theorem pollTrace_succ (pid : String) (n : Nat) :
    pollTrace pid (n + 1) =
      NetAction.sleep pollDelayMs :: NetAction.pollReq pid :: pollTrace pid n := by
  simp [pollTrace, List.replicate_succ]

theorem pollTrace_countP (pid : String) (n : Nat) :
    (pollTrace pid n).countP isPollReq = n := by
  induction n with
  | zero => rfl
  | succ k ih => simp [pollTrace_succ, List.countP_cons, isPollReq, ih]

theorem pollTrace_no_cancel (pid : String) (n : Nat) :
    NetAction.cancel ∉ pollTrace pid n := by
  induction n with
  | zero => simp [pollTrace_zero]
  | succ k ih => simp [pollTrace_succ, ih]

theorem pollLoop_timeout_run (pid : String) (d0 : PredictionData)
    (pre : List (Nat × PollResult)) (e : Nat) (pr : PollResult)
    (rest : List (Nat × PollResult))
    (h0 : nonTerminal d0.status = true)
    (hpre : ∀ x ∈ pre,
      x.1 ≤ timeoutMs ∧ ∃ dx, x.2 = PollResult.ok dx ∧ nonTerminal dx.status = true)
    (he : timeoutMs < e) :
    pollLoop pid timeoutMs d0.status d0 (pre ++ (e, pr) :: rest) =
      (some (Except.error ("Prediction timed out.")), pollTrace pid pre.length) := by
  induction pre generalizing d0 with
  | nil =>
    simp [pollLoop, h0, he, pollTrace_zero]
  | cons x xs ih =>
    obtain ⟨t, prx⟩ := x
    obtain ⟨hx1, dx, hx2, hx3⟩ := hpre (t, prx) (List.mem_cons_self _ _)
    simp only at hx2
    subst hx2
    have ihh := ih dx hx3
      (fun y hy => hpre y (List.mem_cons_of_mem _ hy))
    simp only [List.cons_append, pollLoop, h0, if_true]
    rw [if_neg (Nat.not_lt.mpr hx1)]
    simp [ihh, pollTrace_succ, List.length_cons]

/-- C1: for every invocation of the upload chain, the backends are
attempted in the fixed priority order (Cloudinary when configured, then
catbox.moe, tmpfiles.org, transfer.sh); when the result is a URL, the
attempted backends form a priority-order run whose last member produced
that URL and whose earlier members all failed (so nothing after the
first success is attempted), and exactly one URL is returned; when the
chain fails, every backend in priority order was attempted and failed. -/
theorem C1_upload_chain_short_circuit (env : UploadEnv) :
    (∃ rest, uploadPriority env = (uploadToReplicate env).attempted ++ rest) ∧
    (∀ url, (uploadToReplicate env).result = Except.ok url →
      ∃ pre b, (uploadToReplicate env).attempted = pre ++ [b] ∧
        attemptOf env b = some url ∧ ∀ x ∈ pre, attemptOf env x = none) ∧
    (∀ msg, (uploadToReplicate env).result = Except.error msg →
      (uploadToReplicate env).attempted = uploadPriority env ∧
      ∀ x ∈ uploadPriority env, attemptOf env x = none) := by
  rw [uploadToReplicate_eq_chainRun]
  refine ⟨chainRun_attempted_pre env (uploadPriority env), ?_, ?_⟩
  · intro url h
    exact chainRun_ok env _ url h
  · intro msg h
    exact chainRun_error env _ msg h

/-- C1 witness: in the environment where catbox.moe succeeds, the chain
returns its URL and the attempt record ends at catbox.moe with every
earlier backend failed. -/
theorem C1_upload_chain_short_circuit_witness :
    (uploadToReplicate envCatboxOk).result = Except.ok ("https://files.catbox.moe/a.mp4") ∧
    (∃ pre b, (uploadToReplicate envCatboxOk).attempted = pre ++ [b] ∧
      attemptOf envCatboxOk b = some ("https://files.catbox.moe/a.mp4") ∧
      ∀ x ∈ pre, attemptOf envCatboxOk x = none) := by
  have h := (C1_upload_chain_short_circuit envCatboxOk).2.1
    ("https://files.catbox.moe/a.mp4") rfl
  exact ⟨rfl, h⟩

/-- C4 counterexample: with Cloudinary configured and every backend
failing, Cloudinary is among the attempted backends, yet the aggregate
error text (which is a fixed string) does not name it. -/
theorem C4_counterexample_cloudinary_unnamed :
    (uploadToReplicate envAllFailCloud).result = Except.error aggregateFailMsg ∧
    Backend.cloudinary ∈ (uploadToReplicate envAllFailCloud).attempted ∧
    containsSeg (("cloudinary").data) aggregateFailMsg.data = false ∧
    containsSeg (("Cloudinary").data) aggregateFailMsg.data = false := by
  exact ⟨rfl, by decide, by decide, by decide⟩

/-- C4 (amended): if every backend attempt in the chain fails,
uploadToReplicate fails with a single aggregate error that names
catbox.moe, tmpfiles.org and transfer.sh; the Cloudinary backend is not
named in it even when it was configured and attempted. -/
theorem C4_amended_aggregate_error (env : UploadEnv)
    (h : ∀ b ∈ uploadPriority env, attemptOf env b = none) :
    (uploadToReplicate env).result = Except.error aggregateFailMsg ∧
    containsSeg (("catbox.moe").data) aggregateFailMsg.data = true ∧
    containsSeg (("tmpfiles.org").data) aggregateFailMsg.data = true ∧
    containsSeg (("transfer.sh").data) aggregateFailMsg.data = true ∧
    containsSeg (("cloudinary").data) aggregateFailMsg.data = false := by
  rw [uploadToReplicate_eq_chainRun, chainRun_all_none env _ h]
  exact ⟨rfl, by decide, by decide, by decide, by decide⟩

/-- C4 witness: the amended aggregate-error property at the concrete
environment where every backend call throws. -/
theorem C4_amended_aggregate_error_witness :
    (∀ b ∈ uploadPriority envNoCloudAllFail, attemptOf envNoCloudAllFail b = none) ∧
    (uploadToReplicate envNoCloudAllFail).result = Except.error aggregateFailMsg := by
  have h : ∀ b ∈ uploadPriority envNoCloudAllFail, attemptOf envNoCloudAllFail b = none := by
    decide
  exact ⟨h, (C4_amended_aggregate_error envNoCloudAllFail h).1⟩

/-- C5 counterexample: a transfer.sh 2xx response with an empty body is
returned as the chain's success result (the empty-string URL) instead of
being recorded as a failed attempt. -/
theorem C5_counterexample_transfer_empty_ok :
    (uploadToReplicate envTransferEmpty).result = Except.ok ("") := rfl

/-- C5 (amended): for the Cloudinary, catbox.moe and tmpfiles.org
backends a 2xx response whose expected URL field is missing or malformed
is recorded as a failed attempt, and the chain proceeds to the next
strategy after a failed attempt; the transfer.sh backend however returns
its trimmed, scheme-coerced 2xx body as the success result
unconditionally, even when it is empty or not a URL. -/
theorem C5_amended_malformed_2xx :
    (∀ j : Option CloudinaryJson,
      (jsOrStr (j.getD ⟨none, none⟩).secure_url (j.getD ⟨none, none⟩).url).getD ("") = "" →
      cloudinaryAttempt (some ⟨true, j⟩) = none) ∧
    (∀ body : String, startsWithL catboxPat (stripHttp (jsTrim body)).data = false →
      catboxAttempt (some ⟨true, body⟩) = none) ∧
    (∀ j : Option TmpfilesJson,
      (jsOrStr (j.getD ⟨none, none⟩).data_url (j.getD ⟨none, none⟩).url = none ∨
       jsOrStr (j.getD ⟨none, none⟩).data_url (j.getD ⟨none, none⟩).url = some ("")) →
      tmpfilesAttempt (some ⟨true, j⟩) = none) ∧
    (∀ body : String, transferShAttempt (some ⟨true, body⟩) = some (stripHttp (jsTrim body))) ∧
    (∀ env, cloudinaryConfigured env = false → attemptOf env Backend.catbox = none →
      Backend.tmpfiles ∈ (uploadToReplicate env).attempted) := by
  refine ⟨?_, ?_, ?_, ?_, ?_⟩
  · intro j h
    have e : stripHttp ("") = "" := rfl
    simp [cloudinaryAttempt, h, e]
  · intro body h
    simp [catboxAttempt, h]
  · intro j h
    rcases h with h | h <;> simp [tmpfilesAttempt, h]
  · intro body
    rfl
  · intro env hc hcat
    rw [uploadToReplicate_eq_chainRun]
    simp only [uploadPriority, hc]
    cases h2 : attemptOf env Backend.tmpfiles <;>
      simp [chainRun, hcat, h2]

/-- C5 witness: amended malformed-2xx handling at concrete responses for
each backend. -/
theorem C5_amended_malformed_2xx_witness :
    cloudinaryAttempt (some ⟨true, some ⟨some (""), none⟩⟩) = none ∧
    catboxAttempt (some ⟨true, "hello"⟩) = none ∧
    tmpfilesAttempt (some ⟨true, some ⟨none, none⟩⟩) = none ∧
    transferShAttempt (some ⟨true, ""⟩) = some (stripHttp (jsTrim (""))) ∧
    Backend.tmpfiles ∈ (uploadToReplicate envNoCloudAllFail).attempted := by
  have h := C5_amended_malformed_2xx
  exact ⟨h.1 (some ⟨some (""), none⟩) (by decide),
    h.2.1 ("hello") (by decide),
    h.2.2.1 (some ⟨none, none⟩) (Or.inl (by decide)),
    h.2.2.2.1 (""),
    h.2.2.2.2 envNoCloudAllFail (by decide) (by decide)⟩

theorem http_not_prefix_catbox (t : List Char) :
    startsWithL (("http://").data) (catboxPat ++ t) = false := rfl

theorem http_not_prefix_tmpdl (t : List Char) :
    startsWithL (("http://").data) ((("https://tmpfiles.org/dl/").data) ++ t) = false := rfl

theorem cloudinaryAttempt_some_shape (resp : Option CloudinaryResp) (url : String)
    (h : cloudinaryAttempt resp = some url) : ∃ s, url = stripHttp s := by
  cases resp with
  | none => simp [cloudinaryAttempt] at h
  | some r =>
    obtain ⟨ok, j⟩ := r
    cases ok
    · simp [cloudinaryAttempt] at h
    · simp only [cloudinaryAttempt, Bool.not_true, Bool.false_eq_true, if_false] at h
      split at h
      · exact absurd h (by simp)
      · exact ⟨_, (Option.some.inj h).symm⟩

theorem catboxAttempt_some_shape (resp : Option HttpTextResp) (url : String)
    (h : catboxAttempt resp = some url) : startsWithL catboxPat url.data = true := by
  cases resp with
  | none => simp [catboxAttempt] at h
  | some r =>
    obtain ⟨ok, body⟩ := r
    cases ok
    · simp [catboxAttempt] at h
    · simp only [catboxAttempt, Bool.not_true, Bool.false_eq_true, if_false] at h
      split at h
      next hcond =>
        have he := Option.some.inj h
        subst he
        simp only [Bool.and_eq_true] at hcond
        exact hcond.2
      next => exact absurd h (by simp)

theorem tmpfilesAttempt_some_shape (resp : Option TmpfilesResp) (url : String)
    (h : tmpfilesAttempt resp = some url) :
    ∃ s, url = String.mk (tmpfilesRewriteL ((stripHttp s).data)) := by
  cases resp with
  | none => simp [tmpfilesAttempt] at h
  | some r =>
    obtain ⟨ok, j⟩ := r
    cases ok
    · simp [tmpfilesAttempt] at h
    · simp only [tmpfilesAttempt, Bool.not_true, Bool.false_eq_true, if_false] at h
      split at h
      · exact absurd h (by simp)
      next u hu =>
        split at h
        · exact absurd h (by simp)
        · exact ⟨u, (Option.some.inj h).symm⟩

theorem transferShAttempt_some_shape (resp : Option HttpTextResp) (url : String)
    (h : transferShAttempt resp = some url) : ∃ s, url = stripHttp s := by
  cases resp with
  | none => simp [transferShAttempt] at h
  | some r =>
    obtain ⟨ok, body⟩ := r
    cases ok
    · simp [transferShAttempt] at h
    · simp only [transferShAttempt, Bool.not_true, Bool.false_eq_true, if_false] at h
      exact ⟨_, (Option.some.inj h).symm⟩

theorem tmpfilesRewriteL_strip_not_http (l : List Char) :
    startsWithL (("http://").data) (tmpfilesRewriteL (stripHttpL l)) = false := by
  by_cases h1 : startsWithL tmpfilesPat (stripHttpL l) = true
  · by_cases h2 : (firstSeg ((stripHttpL l).drop tmpfilesPat.length)).isEmpty = true
    · rw [tmpfilesRewriteL, if_pos h1, if_pos h2]
      exact stripHttpL_not_http l
    · rw [tmpfilesRewriteL, if_pos h1, if_neg (by simp [h2])]
      exact http_not_prefix_tmpdl _
  · rw [tmpfilesRewriteL, if_neg (by simp [h1])]
    exact stripHttpL_not_http l

/-- C8 counterexample: a transfer.sh 2xx body carrying an ftp-scheme URL
is returned by the chain unchanged, so a returned URL need not use the
secure https scheme. -/
theorem C8_counterexample_ftp_passthrough :
    (uploadToReplicate envTransferFtp).result = Except.ok ("ftp://example.com/a.mp4") ∧
    startsWithL (("https://").data) (("ftp://example.com/a.mp4").data) = false := by
  exact ⟨rfl, by decide⟩

/-- C8 (amended): no URL returned by the upload chain retains a leading
insecure `http://` scheme; normalization rewrites a leading `http://` to
`https://` and is idempotent.  (A raw backend value of some other shape,
such as an ftp URL from transfer.sh, passes through unchanged rather
than being coerced to https.) -/
theorem C8_amended_scheme_normalization :
    (∀ env url, (uploadToReplicate env).result = Except.ok url →
      startsWithL (("http://").data) url.data = false) ∧
    (∀ l : List Char, stripHttpL ((("http://").data) ++ l) = (("https://").data) ++ l) ∧
    (∀ s : String, stripHttp (stripHttp s) = stripHttp s) := by
  refine ⟨?_, stripHttpL_http, ?_⟩
  · intro env url h
    rw [uploadToReplicate_eq_chainRun] at h
    obtain ⟨pre, b, hatt, hb, hpre⟩ := chainRun_ok env _ url h
    cases b with
    | cloudinary =>
      by_cases hc : cloudinaryConfigured env = true
      · rw [attemptOf, if_pos hc] at hb
        obtain ⟨s, hs⟩ := cloudinaryAttempt_some_shape _ _ hb
        rw [hs]
        exact stripHttpL_not_http s.data
      · rw [attemptOf, if_neg (by simp [hc])] at hb
        exact absurd hb (by simp)
    | catbox =>
      have h1 := catboxAttempt_some_shape _ _ hb
      obtain ⟨t, ht⟩ := (startsWithL_eq_true_iff _ _).mp h1
      rw [ht]
      exact http_not_prefix_catbox t
    | tmpfiles =>
      obtain ⟨s, hs⟩ := tmpfilesAttempt_some_shape _ _ hb
      rw [hs]
      exact tmpfilesRewriteL_strip_not_http s.data
    | transferSh =>
      obtain ⟨s, hs⟩ := transferShAttempt_some_shape _ _ hb
      rw [hs]
      exact stripHttpL_not_http s.data
  · intro s
    show String.mk (stripHttpL (stripHttpL s.data)) = String.mk (stripHttpL s.data)
    rw [stripHttpL_idem]

/-- C8 witness: the amended normalization facts at concrete inputs — a
catbox body with a raw http scheme comes back as an https URL, a leading
http prefix is rewritten, and normalization is idempotent. -/
theorem C8_amended_scheme_normalization_witness :
    (uploadToReplicate envCatboxOk).result = Except.ok ("https://files.catbox.moe/a.mp4") ∧
    startsWithL (("http://").data) (("https://files.catbox.moe/a.mp4").data) = false ∧
    stripHttpL ((("http://").data) ++ (("x.com").data)) = (("https://").data) ++ (("x.com").data) ∧
    stripHttp (stripHttp ("http://x.com")) = stripHttp ("http://x.com") := by
  have h := C8_amended_scheme_normalization
  exact ⟨rfl, h.1 envCatboxOk ("https://files.catbox.moe/a.mp4") rfl,
    h.2.1 (("x.com").data), h.2.2 ("http://x.com")⟩

/-- C10: in the tmpfiles.org branch, after the scheme is coerced to
https, a URL consisting of the tmpfiles host prefix, a non-empty first
segment free of the delimiters `/`, `?`, `#`, and a remainder that is
empty or starts with a delimiter, is rewritten to exactly
`https://tmpfiles.org/dl/` followed by that first segment — every later
path segment, query string and fragment is discarded; a URL that does
not match the host prefix is returned as-is; and the branch returns the
coerced, rewritten URL as its success result. -/
theorem C10_tmpfiles_direct_link :
    (∀ seg tail : List Char, seg ≠ [] →
      (∀ c ∈ seg, isDelim c = false) →
      (tail = [] ∨ ∃ c rest, tail = c :: rest ∧ isDelim c = true) →
      tmpfilesRewriteL (tmpfilesPat ++ seg ++ tail) =
        (("https://tmpfiles.org/dl/").data) ++ seg) ∧
    (∀ u : String, startsWithL tmpfilesPat u.data = false →
      String.mk (tmpfilesRewriteL u.data) = u) ∧
    (∀ r : TmpfilesResp, r.ok = true → ∀ u, u ≠ "" →
      jsOrStr (r.json.getD ⟨none, none⟩).data_url (r.json.getD ⟨none, none⟩).url = some u →
      tmpfilesAttempt (some r) = some (String.mk (tmpfilesRewriteL ((stripHttp u).data)))) := by
  refine ⟨?_, ?_, ?_⟩
  · intro seg tail hne hseg htail
    rw [List.append_assoc]
    have hstart : startsWithL tmpfilesPat (tmpfilesPat ++ (seg ++ tail)) = true :=
      startsWithL_self_append _ _
    rw [tmpfilesRewriteL, if_pos hstart, List.drop_left]
    have hfs : firstSeg (seg ++ tail) = seg := by
      rcases htail with rfl | ⟨c, rest, rfl, hc⟩
      · rw [List.append_nil]
        exact takeWhile_all_true _ seg (fun x hx => by simp [hseg x hx])
      · exact takeWhile_append_stop _ seg c rest (fun x hx => by simp [hseg x hx]) (by simp [hc])
    rw [hfs, if_neg (by simp [List.isEmpty_iff, hne])]
  · intro u h
    rw [tmpfilesRewriteL, if_neg (by simp [h])]
  · intro r hok u hne hjs
    obtain ⟨ok, j⟩ := r
    simp only at hok
    subst hok
    simp only [tmpfilesAttempt, Bool.not_true, Bool.false_eq_true, if_false]
    simp only at hjs
    rw [hjs]
    simp [hne]

/-- C10 witness: the rewrite at a URL with an id segment and a filename,
pass-through at a non-matching URL, and the branch success value at a
concrete tmpfiles response. -/
theorem C10_tmpfiles_direct_link_witness :
    tmpfilesRewriteL (tmpfilesPat ++ (("123").data) ++ (("/video.mp4").data)) =
      (("https://tmpfiles.org/dl/").data) ++ (("123").data) ∧
    String.mk (tmpfilesRewriteL (("https://example.com/z").data)) = "https://example.com/z" ∧
    tmpfilesAttempt (some ⟨true, some ⟨some ("http://tmpfiles.org/123/video.mp4"), none⟩⟩) =
      some (String.mk (tmpfilesRewriteL ((stripHttp ("http://tmpfiles.org/123/video.mp4")).data))) := by
  have h := C10_tmpfiles_direct_link
  refine ⟨h.1 (("123").data) (("/video.mp4").data) (by decide) (by decide)
      (Or.inr ⟨'/', ("video.mp4").data, rfl, by decide⟩),
    h.2.1 ("https://example.com/z") (by decide),
    h.2.2 ⟨true, some ⟨some ("http://tmpfiles.org/123/video.mp4"), none⟩⟩ rfl
      ("http://tmpfiles.org/123/video.mp4") (by decide) rfl⟩

/-- C6 counterexample: the identifier `:abc123` contains a colon, yet its
parsed model is null, so the submission targets the generic predictions
endpoint rather than a model/version-specific one. -/
theorem C6_counterexample_colon_identifier :
    hasColonL ((":abc123").data) = true ∧
    parseReplicateModelVersion (some (":abc123")) = (none, some ("abc123")) ∧
    submissionEndpoint cfgColonOnly = "https://api.replicate.com/v1/predictions" := by
  exact ⟨by decide, by decide, by decide⟩

/-- C6 (amended): for an identifier `m:v` whose two colon-free parts are
both non-empty, parsing yields model `m` and version `v` and the
submission targets the model/version-specific endpoint built from them;
for a non-empty colon-free identifier the parsed model is null and the
submission targets the generic endpoint.  (An identifier with a colon
but an empty model part parses to a null model and falls back to the
generic endpoint, as the counterexample shows.) -/
theorem C6_amended_endpoint_selection (m v : String) (tok : Option String)
    (hm : m.data ≠ []) (hv : v.data ≠ [])
    (hmc : (':') ∉ m.data) (hvc : (':') ∉ v.data) :
    parseReplicateModelVersion (some (m ++ ":" ++ v)) = (some m, some v) ∧
    submissionEndpoint ⟨tok, some (m ++ ":" ++ v)⟩ =
      "https://api.replicate.com/v1/models/" ++ m ++ "/versions/" ++ v ++ "/predictions" ∧
    (∀ s : String, s.data ≠ [] → (':') ∉ s.data →
      parseReplicateModelVersion (some s) = (none, some s) ∧
      submissionEndpoint ⟨tok, some s⟩ = "https://api.replicate.com/v1/predictions") := by
  have hdata : (m ++ ":" ++ v).data = m.data ++ (':') :: v.data := by
    rw [String.data_append, String.data_append, List.append_assoc]
    rfl
  have hp1 : (m.data ++ (':') :: v.data).takeWhile (fun c => !(c == ':')) = m.data :=
    takeWhile_append_stop _ _ _ _
      (fun x hx => by
        have hxne : x ≠ ':' := fun e => hmc (by rw [e] at hx; exact hx)
        simp [hxne])
      (by decide)
  have hp3 : v.data.takeWhile (fun c => !(c == ':')) = v.data :=
    takeWhile_all_true _ _
      (fun x hx => by
        have hxne : x ≠ ':' := fun e => hvc (by rw [e] at hx; exact hx)
        simp [hxne])
  have hie : (m.data ++ (':') :: v.data).isEmpty = false := by simp
  have hme : m.data.isEmpty = false := by simp [List.isEmpty_iff, hm]
  have hve : v.data.isEmpty = false := by simp [List.isEmpty_iff, hv]
  have hparse : parseReplicateModelVersion (some (m ++ ":" ++ v)) = (some m, some v) := by
    simp only [parseReplicateModelVersion, hdata, hie, hasColonL_append_colon,
      Bool.false_eq_true, if_false, if_true, hp1, drop_append_cons_len, hp3, hme, hve]
  have hmne : m ≠ "" := fun e => hm (by rw [e])
  have hvne : v ≠ "" := fun e => hv (by rw [e])
  refine ⟨hparse, ?_, ?_⟩
  · simp only [submissionEndpoint, hparse]
    simp [jsOrStr, jsTruthy, hvne, hmne]
  · intro s hs hsc
    have hcol := hasColonL_eq_false s.data hsc
    have hsie : s.data.isEmpty = false := by simp [List.isEmpty_iff, hs]
    have hsp : parseReplicateModelVersion (some s) = (none, some s) := by
      simp only [parseReplicateModelVersion, hsie, hcol, Bool.false_eq_true, if_false]
    refine ⟨hsp, ?_⟩
    simp only [submissionEndpoint, hsp]
    simp [jsTruthy]

/-- C6 witness: endpoint selection at the concrete identifiers
`owner/name:abc123` and `abc123`. -/
theorem C6_amended_endpoint_selection_witness :
    parseReplicateModelVersion (some ("owner/name:abc123")) =
      (some ("owner/name"), some ("abc123")) ∧
    submissionEndpoint ⟨some ("tok"), some ("owner/name:abc123")⟩ =
      "https://api.replicate.com/v1/models/owner/name/versions/abc123/predictions" ∧
    parseReplicateModelVersion (some ("abc123")) = (none, some ("abc123")) ∧
    submissionEndpoint ⟨some ("tok"), some ("abc123")⟩ =
      "https://api.replicate.com/v1/predictions" := by
  have h := C6_amended_endpoint_selection ("owner/name") ("abc123") (some ("tok"))
    (by decide) (by decide) (by decide) (by decide)
  have h3 := h.2.2 ("abc123") (by decide) (by decide)
  refine ⟨?_, ?_, h3.1, h3.2⟩
  · have := h.1
    simpa using this
  · have := h.2.1
    simpa using this

theorem pollLoop_exit_succeeded (pid : String) (budget : Nat) (d : PredictionData)
    (env : List (Nat × PollResult)) (h : d.status = "succeeded") :
    pollLoop pid budget d.status d env = (some (Except.ok d), []) := by
  have g1 : nonTerminal ("succeeded") = false := rfl
  cases env with
  | nil => simp [pollLoop, h, g1]
  | cons x rest =>
    obtain ⟨e, pr⟩ := x
    simp [pollLoop, h, g1]

theorem pollLoop_exit_error (pid : String) (budget : Nat) (d : PredictionData)
    (env : List (Nat × PollResult)) (hnt : nonTerminal d.status = false)
    (hne : d.status ≠ "succeeded") :
    pollLoop pid budget d.status d env =
      (some (Except.error ("Prediction ended with status: " ++ d.status ++ ", error: "
        ++ d.error.getD ("unknown"))), []) := by
  cases env with
  | nil => simp [pollLoop, hnt, hne]
  | cons x rest =>
    obtain ⟨e, pr⟩ := x
    simp [pollLoop, hnt, hne]

/-- C2: the polling loop continues exactly while the status is queued,
starting or processing — with a non-terminal status and elapsed time
within budget it sleeps, issues one poll and continues from the polled
payload; with status succeeded it stops returning the last payload; with
any other terminal status it stops failing with a message carrying the
remote status and the remote error detail (or "unknown" when absent);
and a 2xx submission whose payload is already succeeded makes
runPredictionWithUrl return that payload with no poll request issued. -/
theorem C2_poll_loop_semantics :
    (∀ s, nonTerminal s = true ↔ (s = "queued" ∨ s = "starting" ∨ s = "processing")) ∧
    (∀ pid budget (d d2 : PredictionData) e rest,
      nonTerminal d.status = true → e ≤ budget →
      pollLoop pid budget d.status d ((e, PollResult.ok d2) :: rest) =
        ((pollLoop pid budget d2.status d2 rest).1,
         NetAction.sleep pollDelayMs :: NetAction.pollReq pid ::
           (pollLoop pid budget d2.status d2 rest).2)) ∧
    (∀ pid budget (d : PredictionData) env, d.status = "succeeded" →
      pollLoop pid budget d.status d env = (some (Except.ok d), [])) ∧
    (∀ pid budget (d : PredictionData) env,
      nonTerminal d.status = false → d.status ≠ "succeeded" →
      pollLoop pid budget d.status d env =
        (some (Except.error ("Prediction ended with status: " ++ d.status ++ ", error: "
          ++ d.error.getD ("unknown"))), [])) ∧
    (∀ cfg url (start : StartResult) env, start.ok = true → start.data.status = "succeeded" →
      runPredictionWithUrl cfg url start env =
        some ⟨submissionEndpoint cfg, url, Except.ok start.data,
          [NetAction.submit (submissionEndpoint cfg)]⟩) := by
  refine ⟨?_, ?_, ?_, ?_, ?_⟩
  · intro s
    simp [nonTerminal, or_assoc]
  · intro pid budget d d2 e rest h1 h2
    simp only [pollLoop, h1, if_true]
    rw [if_neg (Nat.not_lt.mpr h2)]
  · intro pid budget d env h
    exact pollLoop_exit_succeeded pid budget d env h
  · intro pid budget d env hnt hne
    exact pollLoop_exit_error pid budget d env hnt hne
  · intro cfg url start env hok hsucc
    simp only [runPredictionWithUrl, hok, Bool.not_true, Bool.false_eq_true, if_false]
    rw [pollLoop_exit_succeeded start.data.id timeoutMs start.data env hsucc]

/-- C2 witness: the loop semantics at concrete payloads — a continue
step, the two exit shapes including the error detail, and the
no-poll immediate return on an already-succeeded submission. -/
theorem C2_poll_loop_semantics_witness :
    nonTerminal ("processing") = true ∧
    pollLoop ("p1") timeoutMs dProcessing.status dProcessing [(0, PollResult.ok dSucceeded)] =
      ((pollLoop ("p1") timeoutMs dSucceeded.status dSucceeded []).1,
       NetAction.sleep pollDelayMs :: NetAction.pollReq ("p1") ::
         (pollLoop ("p1") timeoutMs dSucceeded.status dSucceeded []).2) ∧
    pollLoop ("p1") timeoutMs dSucceeded.status dSucceeded [] =
      (some (Except.ok dSucceeded), []) ∧
    pollLoop ("p1") timeoutMs dFailed.status dFailed [] =
      (some (Except.error ("Prediction ended with status: failed, error: NSFW detected")), []) ∧
    runPredictionWithUrl cfgModel ("https://example.com/in.mp4") startSucceeded [] =
      some ⟨submissionEndpoint cfgModel, "https://example.com/in.mp4", Except.ok dSucceeded,
        [NetAction.submit (submissionEndpoint cfgModel)]⟩ := by
  have h := C2_poll_loop_semantics
  have h4 := h.2.2.2.1 ("p1") timeoutMs dFailed [] (by decide) (by decide)
  exact ⟨(h.1 ("processing")).mpr (Or.inr (Or.inr rfl)),
    h.2.1 ("p1") timeoutMs dProcessing dSucceeded 0 [] (by decide) (by decide),
    h.2.2.1 ("p1") timeoutMs dSucceeded [] rfl,
    h4,
    h.2.2.2.2 cfgModel ("https://example.com/in.mp4") startSucceeded [] rfl rfl⟩

/-- C3: runPredictionWithUrl enforces the 10-minute wall-clock budget
measured from submission: in a run whose observed statuses all stay
non-terminal and whose elapsed time at some loop head exceeds the
budget (earlier heads being within it), it fails with "Prediction timed
out.", having issued exactly one poll per completed earlier iteration
and none after the failure, and no cancellation action occurs anywhere
in the trace. -/
theorem C3_timeout_budget (cfg : ReplicateConfig) (url : String) (start : StartResult)
    (pre : List (Nat × PollResult)) (e : Nat) (pr : PollResult)
    (rest : List (Nat × PollResult))
    (hok : start.ok = true)
    (h0 : nonTerminal start.data.status = true)
    (hpre : ∀ x ∈ pre,
      x.1 ≤ timeoutMs ∧ ∃ dx, x.2 = PollResult.ok dx ∧ nonTerminal dx.status = true)
    (he : timeoutMs < e) :
    timeoutMs = 10 * 60 * 1000 ∧
    runPredictionWithUrl cfg url start (pre ++ (e, pr) :: rest) =
      some ⟨submissionEndpoint cfg, url, Except.error ("Prediction timed out."),
        NetAction.submit (submissionEndpoint cfg) :: pollTrace start.data.id pre.length⟩ ∧
    (pollTrace start.data.id pre.length).countP isPollReq = pre.length ∧
    NetAction.cancel ∉
      NetAction.submit (submissionEndpoint cfg) :: pollTrace start.data.id pre.length := by
  refine ⟨rfl, ?_, pollTrace_countP _ _, ?_⟩
  · simp only [runPredictionWithUrl, hok, Bool.not_true, Bool.false_eq_true, if_false]
    rw [pollLoop_timeout_run start.data.id start.data pre e pr rest h0 hpre he]
  · simp only [List.mem_cons]
    rintro (h1 | h2)
    · simp at h1
    · exact pollTrace_no_cancel _ _ h2

/-- C3 witness: a run that stays processing and exceeds the budget at
the second loop head times out after exactly one poll. -/
theorem C3_timeout_budget_witness :
    timeoutMs < timeoutMs + 1 ∧
    runPredictionWithUrl cfgModel ("https://example.com/in.mp4") startStarting
        ([(0, PollResult.ok dProcessing)] ++ (timeoutMs + 1, PollResult.ok dProcessing) :: []) =
      some ⟨submissionEndpoint cfgModel, "https://example.com/in.mp4",
        Except.error ("Prediction timed out."),
        NetAction.submit (submissionEndpoint cfgModel) :: pollTrace ("p1") 1⟩ := by
  have h := C3_timeout_budget cfgModel ("https://example.com/in.mp4") startStarting
    [(0, PollResult.ok dProcessing)] (timeoutMs + 1) (PollResult.ok dProcessing) []
    rfl (by decide)
    (by
      intro x hx
      simp only [List.mem_singleton] at hx
      subst hx
      exact ⟨by decide, dProcessing, rfl, by decide⟩)
    (by omega)
  exact ⟨by omega, h.2.1⟩

/-- C7 counterexample: with a non-terminal submission status and a
sequence of polls returning processing, processing, succeeded, the
orchestrator issues three poll calls, not two, before returning the
succeeded payload. -/
theorem C7_counterexample_three_polls :
    runPredictionWithUrl cfgModel ("https://example.com/in.mp4") startStarting envPPS =
      some ⟨submissionEndpoint cfgModel, "https://example.com/in.mp4", Except.ok dSucceeded,
        [NetAction.submit (submissionEndpoint cfgModel),
         NetAction.sleep pollDelayMs, NetAction.pollReq ("p1"),
         NetAction.sleep pollDelayMs, NetAction.pollReq ("p1"),
         NetAction.sleep pollDelayMs, NetAction.pollReq ("p1")]⟩ ∧
    ([NetAction.submit (submissionEndpoint cfgModel),
      NetAction.sleep pollDelayMs, NetAction.pollReq ("p1"),
      NetAction.sleep pollDelayMs, NetAction.pollReq ("p1"),
      NetAction.sleep pollDelayMs, NetAction.pollReq ("p1")]).countP isPollReq = 3 ∧
    (3 : Nat) ≠ 2 := by
  exact ⟨rfl, by decide, by decide⟩

/-- C7 (amended): given a submission response with a non-terminal status
and polls returning processing, processing, succeeded, each observed
within the budget, the orchestrator issues exactly three poll calls,
sleeping the fixed 2-second delay before each, and then returns the
succeeded job's payload (which carries the output). -/
theorem C7_amended_three_polls (cfg : ReplicateConfig) (url : String) (start : StartResult)
    (d1 d2 d3 : PredictionData) (e1 e2 e3 : Nat)
    (hok : start.ok = true) (h0 : nonTerminal start.data.status = true)
    (h1 : d1.status = "processing") (h2 : d2.status = "processing")
    (h3 : d3.status = "succeeded")
    (he1 : e1 ≤ timeoutMs) (he2 : e2 ≤ timeoutMs) (he3 : e3 ≤ timeoutMs) :
    runPredictionWithUrl cfg url start
        [(e1, PollResult.ok d1), (e2, PollResult.ok d2), (e3, PollResult.ok d3)] =
      some ⟨submissionEndpoint cfg, url, Except.ok d3,
        [NetAction.submit (submissionEndpoint cfg),
         NetAction.sleep pollDelayMs, NetAction.pollReq start.data.id,
         NetAction.sleep pollDelayMs, NetAction.pollReq start.data.id,
         NetAction.sleep pollDelayMs, NetAction.pollReq start.data.id]⟩ := by
  have hnt1 : nonTerminal d1.status = true := by rw [h1]; rfl
  have hnt2 : nonTerminal d2.status = true := by rw [h2]; rfl
  have g1 : nonTerminal ("succeeded") = false := rfl
  simp only [runPredictionWithUrl, hok, Bool.not_true, Bool.false_eq_true, if_false]
  simp [pollLoop, h0, hnt1, hnt2, h3, g1,
    Nat.not_lt.mpr he1, Nat.not_lt.mpr he2, Nat.not_lt.mpr he3]

/-- C7 witness: the amended three-poll run at concrete payloads. -/
theorem C7_amended_three_polls_witness :
    runPredictionWithUrl cfgModel ("https://w.example/in.mp4") startStarting envPPS =
      some ⟨submissionEndpoint cfgModel, "https://w.example/in.mp4", Except.ok dSucceeded,
        [NetAction.submit (submissionEndpoint cfgModel),
         NetAction.sleep pollDelayMs, NetAction.pollReq startStarting.data.id,
         NetAction.sleep pollDelayMs, NetAction.pollReq startStarting.data.id,
         NetAction.sleep pollDelayMs, NetAction.pollReq startStarting.data.id]⟩ :=
  C7_amended_three_polls cfgModel ("https://w.example/in.mp4") startStarting
    dProcessing dProcessing dSucceeded 0 1 2
    rfl (by decide) rfl rfl rfl (by decide) (by decide) (by decide)

/-- C9: with both the API credential and the model identifier missing,
the health check reports replicateConfigured false, and every
/api/remove request is answered 500 with the fixed not-configured
message while the network-action trace stays empty — no upload attempt,
no submission and no poll is issued. -/
theorem C9_not_configured (req : RemoveReq) (uenv : UploadEnv) (start : StartResult)
    (penv : List (Nat × PollResult)) :
    healthReplicateConfigured ⟨none, none⟩ = false ∧
    removeHandler ⟨none, none⟩ req uenv start penv =
      some ⟨500, RespBody.failure serverNotConfiguredMsg, []⟩ := by
  exact ⟨rfl, by simp [removeHandler, jsTruthy]⟩
